import Mathlib

/-!
Verification development for the city generator (src/main.py).

The Python source is shallowly embedded: dataclasses become structures,
floats become exact rationals (with real-valued Euclidean distance where
the source calls math.sqrt), and the process-global `random` source is
modelled by explicit oracle arguments supplying each draw.  Each
generator method is translated into a Lean function over these types,
and the spec's claims are settled as theorems about those functions.
-/

/-- Point dataclass (src/main.py): two coordinates. The source stores
Python floats; the embedding uses exact rationals. -/
structure Point where
  x : ℚ
  y : ℚ
  deriving DecidableEq, Repr

/-- Squared Euclidean distance between two points, the radicand of
Point.distance_to in the source. -/
def distSq (p q : Point) : ℚ :=
  (p.x - q.x) ^ 2 + (p.y - q.y) ^ 2

/-- Point.distance_to (src/main.py line 19): math.sqrt of the sum of
squared coordinate differences, idealized as the real square root. -/
noncomputable def Point.distance_to (p q : Point) : ℝ :=
  Real.sqrt ((distSq p q : ℚ) : ℝ)

/-- Street dataclass (src/main.py lines 22-27).  The source field `end`
is a Lean keyword and is rendered here as `stop`. -/
structure Street where
  start : Point
  stop : Point
  width : ℚ
  street_type : String
  deriving DecidableEq, Repr

/-- Building dataclass (src/main.py lines 29-34). -/
structure Building where
  position : Point
  width : ℚ
  height : ℚ
  building_type : String
  deriving DecidableEq, Repr

/-- River dataclass (src/main.py lines 36-39). -/
structure River where
  points : List Point
  width : ℚ
  deriving DecidableEq, Repr

/-- Rule lookup `self.rules.get(char, char)` (src/main.py line 57):
a symbol with no rule is replaced by itself.  The Python dict of
single-character keys is embedded as an association list. -/
def ruleOf (rules : List (Char × List Char)) (c : Char) : List Char :=
  (rules.lookup c).getD [c]

/-- One iteration of LSystem.generate's inner loop (src/main.py lines
55-58): build the new string by appending each symbol's replacement. -/
def lstep (rules : List (Char × List Char)) (s : List Char) : List Char :=
  s.foldl (fun acc c => acc ++ ruleOf rules c) []

/-- LSystem.generate (src/main.py lines 52-59): start from the axiom
and rewrite the whole string `iterations` times. -/
def LSystem.generate (rules : List (Char × List Char)) (ax : List Char) :
    Nat → List Char
  | 0 => ax
  | n + 1 => LSystem.generate rules (lstep rules ax) n

/-- Simultaneous substitution, written the way the spec describes it:
every symbol is replaced by its rule right-hand side in one parallel
step. -/
def specStep (rules : List (Char × List Char)) (s : List Char) : List Char :=
  s.flatMap (ruleOf rules)

/-- The L-system rule table hard-coded in StreetGenerator.__init__
(src/main.py lines 66-73). -/
def kochRules : List (Char × List Char) :=
  [('F', "F+F-F-F+F".toList), ('+', ['+']), ('-', ['-'])]

lemma foldl_append_eq_flatMap (f : Char → List Char) :
    ∀ (s : List Char) (init : List Char),
      s.foldl (fun acc c => acc ++ f c) init = init ++ s.flatMap f
  | [], init => by simp
  | c :: cs, init => by
    simp [List.foldl_cons, foldl_append_eq_flatMap f cs]

lemma lstep_eq_specStep (rules : List (Char × List Char)) (s : List Char) :
    lstep rules s = specStep rules s := by
  simp [lstep, specStep, foldl_append_eq_flatMap]

lemma generate_eq_iterate (rules : List (Char × List Char)) :
    ∀ (n : Nat) (ax : List Char),
      LSystem.generate rules ax n = (specStep rules)^[n] ax
  | 0, ax => rfl
  | n + 1, ax => by
    rw [LSystem.generate, generate_eq_iterate rules n,
      Function.iterate_succ_apply, lstep_eq_specStep]

/-- C4: LSystem.generate applies the simultaneous symbol substitution
(identity for unmapped symbols) N times in sequence; N = 0 returns the
axiom unchanged, and axiom "F" under the rule F ↦ "F+F-F-F+F" yields
"F+F-F-F+F" (9 symbols) after one iteration. -/
theorem c4_lsystem_generate_correct :
    (∀ rules ax, LSystem.generate rules ax 0 = ax) ∧
    (∀ rules ax n, LSystem.generate rules ax n = (specStep rules)^[n] ax) ∧
    LSystem.generate kochRules ['F'] 1 = "F+F-F-F+F".toList ∧
    (LSystem.generate kochRules ['F'] 1).length = 9 :=
  ⟨fun _ _ => rfl, fun rules ax n => generate_eq_iterate rules n ax,
    by decide, by decide⟩

/-- Exact cosine, in degrees, of the headings this program produces.
The source calls math.cos(math.radians(angle)) where `angle` starts at
0 and only ever changes by plus or minus 90 (src/main.py lines 78-98),
so it is always a multiple of 90 and the cosine is exactly 1, 0, -1 or
0; the value of this function on other angles is never used. -/
def cosd (a : Int) : ℚ :=
  if a % 360 = 0 then 1
  else if a % 360 = 90 then 0
  else if a % 360 = 180 then -1
  else 0

/-- Exact sine in degrees for right-angle headings; see `cosd`. -/
def sind (a : Int) : ℚ :=
  if a % 360 = 0 then 0
  else if a % 360 = 90 then 1
  else if a % 360 = 180 then 0
  else -1

/-- The loop state of StreetGenerator.generate_streets (src/main.py
lines 77-81): turtle position, heading angle in degrees, the branch
stack, and the street list being appended to (self.streets). -/
structure TurtleState where
  x : ℚ
  y : ℚ
  angle : Int
  stack : List (ℚ × ℚ × Int)
  streets : List Street
  deriving DecidableEq, Repr

/-- One iteration of the symbol loop of StreetGenerator.generate_streets
(src/main.py lines 82-103).  `rnd` supplies the random width and street
type drawn for each emitted street, indexed by how many streets have
been emitted so far. -/
def stepChar (w h : ℚ) (rnd : Nat → ℚ × String) (st : TurtleState) :
    Char → TurtleState
  | 'F' =>
    let nx := st.x + 8 * cosd st.angle
    let ny := st.y + 8 * sind st.angle
    let st1 :=
      if 0 ≤ nx ∧ nx ≤ w ∧ 0 ≤ ny ∧ ny ≤ h then
        { st with streets := st.streets ++
            [{ start := ⟨st.x, st.y⟩, stop := ⟨nx, ny⟩,
               width := (rnd st.streets.length).1,
               street_type := (rnd st.streets.length).2 }] }
      else st
    { st1 with x := nx, y := ny }
  | '+' => { st with angle := st.angle + 90 }
  | '-' => { st with angle := st.angle - 90 }
  | '[' => { st with stack := (st.x, st.y, st.angle) :: st.stack }
  | ']' =>
    match st.stack with
    | [] => st
    | (px, py, pa) :: rest =>
      { st with x := px, y := py, angle := pa, stack := rest }
  | _ => st

/-- The whole symbol loop of StreetGenerator.generate_streets over an
expanded L-system string. -/
def interpret (w h : ℚ) (rnd : Nat → ℚ × String) (s : List Char)
    (st : TurtleState) : TurtleState :=
  s.foldl (stepChar w h rnd) st

/-- StreetGenerator's own state (src/main.py lines 61-65): canvas
dimensions and the stored self.streets list. -/
structure StreetGenerator where
  width : Int
  height : Int
  streets : List Street
  deriving DecidableEq, Repr

/-- StreetGenerator.generate_streets (src/main.py lines 75-104): expand
the fixed L-system, start the turtle at (width // 2, height // 2) with
heading 0 and an empty branch stack, run the symbol loop appending onto
the stored self.streets, and keep (and return) the resulting list. -/
def StreetGenerator.generate_streets (g : StreetGenerator)
    (rnd : Nat → ℚ × String) (iterations : Nat) : StreetGenerator :=
  let lString := LSystem.generate kochRules ['F'] iterations
  let st0 : TurtleState :=
    { x := ((g.width.fdiv 2 : Int) : ℚ), y := ((g.height.fdiv 2 : Int) : ℚ),
      angle := 0, stack := [], streets := g.streets }
  { g with streets :=
      (interpret (g.width : ℚ) (g.height : ℚ) rnd lString st0).streets }

/-- The in-bounds test `0 <= v <= self.width` applied to a Point
(src/main.py line 86). -/
def inBoundsPt (w h : ℚ) (p : Point) : Prop :=
  0 ≤ p.x ∧ p.x ≤ w ∧ 0 ≤ p.y ∧ p.y ≤ h

instance (w h : ℚ) (p : Point) : Decidable (inBoundsPt w h p) := by
  unfold inBoundsPt
  exact inferInstance

/-- Count of draw-forward symbols whose computed endpoint lies in
bounds, along the turtle trajectory of the symbol string.  This is the
spec-side counter for C5: it follows the same position, heading and
branch-stack evolution as the interpreter but records only how many
Streets would be emitted. -/
def countF (w h : ℚ) : List Char → ℚ → ℚ → Int → List (ℚ × ℚ × Int) → Nat
  | [], _, _, _, _ => 0
  | 'F' :: cs, x, y, a, stk =>
    (if 0 ≤ x + 8 * cosd a ∧ x + 8 * cosd a ≤ w ∧
        0 ≤ y + 8 * sind a ∧ y + 8 * sind a ≤ h then 1 else 0) +
      countF w h cs (x + 8 * cosd a) (y + 8 * sind a) a stk
  | '+' :: cs, x, y, a, stk => countF w h cs x y (a + 90) stk
  | '-' :: cs, x, y, a, stk => countF w h cs x y (a - 90) stk
  | '[' :: cs, x, y, a, stk => countF w h cs x y a ((x, y, a) :: stk)
  | ']' :: cs, x, y, a, [] => countF w h cs x y a []
  | ']' :: cs, _, _, _, (px, py, pa) :: rest => countF w h cs px py pa rest
  | _ :: cs, x, y, a, stk => countF w h cs x y a stk

lemma interpret_nil (w h : ℚ) (rnd : Nat → ℚ × String) (st : TurtleState) :
    interpret w h rnd [] st = st := rfl

lemma interpret_cons (w h : ℚ) (rnd : Nat → ℚ × String) (c : Char)
    (cs : List Char) (st : TurtleState) :
    interpret w h rnd (c :: cs) st = interpret w h rnd cs (stepChar w h rnd st c) :=
  List.foldl_cons cs st

lemma interpret_streets_length (w h : ℚ) (rnd : Nat → ℚ × String) :
    ∀ (s : List Char) (st : TurtleState),
      (interpret w h rnd s st).streets.length =
        st.streets.length + countF w h s st.x st.y st.angle st.stack := by
  intro s
  induction s with
  | nil => intro st; simp [interpret_nil, countF]
  | cons c cs ih =>
    intro st
    rw [interpret_cons, ih]
    by_cases h1 : c = 'F'
    · subst h1
      simp only [stepChar, countF]
      split_ifs <;> (simp; try omega)
    · by_cases h2 : c = '+'
      · subst h2; simp [stepChar, countF]
      · by_cases h3 : c = '-'
        · subst h3; simp [stepChar, countF]
        · by_cases h4 : c = '['
          · subst h4; simp [stepChar, countF]
          · by_cases h5 : c = ']'
            · subst h5
              rcases hst : st.stack with _ | ⟨⟨px, py, pa⟩, rest⟩ <;>
                simp [stepChar, countF, hst]
            · simp [stepChar, countF, h1, h2, h3, h4, h5]

/-- C5: a draw-forward symbol advances the turtle to the newly computed
coordinates in every case, emits a Street exactly when that new position
lies within canvas bounds, and over any symbol string the number of
emitted streets equals the count of forward symbols whose computed
endpoint is in bounds. -/
theorem c5_forward_emission (w h : ℚ) (rnd : Nat → ℚ × String) :
    (∀ st : TurtleState,
      (stepChar w h rnd st 'F').x = st.x + 8 * cosd st.angle ∧
      (stepChar w h rnd st 'F').y = st.y + 8 * sind st.angle ∧
      (stepChar w h rnd st 'F').streets.length = st.streets.length +
        (if inBoundsPt w h ⟨st.x + 8 * cosd st.angle, st.y + 8 * sind st.angle⟩
          then 1 else 0)) ∧
    (∀ (s : List Char) (st : TurtleState),
      (interpret w h rnd s st).streets.length =
        st.streets.length + countF w h s st.x st.y st.angle st.stack) := by
  constructor
  · intro st
    simp only [stepChar, inBoundsPt]
    split_ifs <;> simp
  · exact interpret_streets_length w h rnd

/-- C6: a push symbol immediately followed by a pop symbol restores the
entire turtle state (position, heading, stack, emitted streets), and a
pop on an empty branch stack is a no-op. -/
theorem c6_push_pop_inverse (w h : ℚ) (rnd : Nat → ℚ × String) :
    (∀ st : TurtleState, interpret w h rnd ['[', ']'] st = st) ∧
    (∀ st : TurtleState, st.stack = [] → stepChar w h rnd st ']' = st) := by
  constructor
  · intro st
    cases st
    simp [interpret, stepChar]
  · intro st hst
    cases st
    simp only at hst
    simp [stepChar, hst]

/-- Witness for C6: popping with an empty stack at a concrete turtle
state leaves the state unchanged. -/
theorem c6_push_pop_inverse_witness :
    stepChar 100 100 (fun _ => (1, "main"))
      { x := 3, y := 4, angle := 90, stack := [], streets := [] } ']' =
      { x := 3, y := 4, angle := 90, stack := [], streets := [] } :=
  (c6_push_pop_inverse 100 100 (fun _ => (1, "main"))).2 _ rfl

lemma stepChar_streets_cases (w h : ℚ) (rnd : Nat → ℚ × String)
    (st : TurtleState) (c : Char) :
    (stepChar w h rnd st c).streets = st.streets ∨
    (inBoundsPt w h ⟨st.x + 8 * cosd st.angle, st.y + 8 * sind st.angle⟩ ∧
      (stepChar w h rnd st c).streets = st.streets ++
        [{ start := ⟨st.x, st.y⟩,
           stop := ⟨st.x + 8 * cosd st.angle, st.y + 8 * sind st.angle⟩,
           width := (rnd st.streets.length).1,
           street_type := (rnd st.streets.length).2 }]) := by
  by_cases h1 : c = 'F'
  · subst h1
    simp only [stepChar]
    split_ifs with hb
    · right
      refine ⟨?_, by simp⟩
      simp only [inBoundsPt]
      exact hb
    · left; rfl
  · by_cases h2 : c = '+'
    · subst h2; left; rfl
    · by_cases h3 : c = '-'
      · subst h3; left; rfl
      · by_cases h4 : c = '['
        · subst h4; left; rfl
        · by_cases h5 : c = ']'
          · subst h5
            rcases hst : st.stack with _ | ⟨⟨px, py, pa⟩, rest⟩ <;>
              simp [stepChar, hst]
          · left; simp [stepChar, h1, h2, h3, h4, h5]

lemma interpret_streets_append (w h : ℚ) (rnd : Nat → ℚ × String) :
    ∀ (s : List Char) (st : TurtleState),
      ∃ tl, (interpret w h rnd s st).streets = st.streets ++ tl ∧
        ∀ t ∈ tl, inBoundsPt w h t.stop := by
  intro s
  induction s with
  | nil => intro st; exact ⟨[], by simp [interpret_nil], by simp⟩
  | cons c cs ih =>
    intro st
    obtain ⟨tl, htl, hP⟩ := ih (stepChar w h rnd st c)
    rw [interpret_cons]
    rcases stepChar_streets_cases w h rnd st c with hc | ⟨hb, hc⟩
    · exact ⟨tl, by rw [htl, hc], hP⟩
    · refine ⟨[Street.mk ⟨st.x, st.y⟩
          ⟨st.x + 8 * cosd st.angle, st.y + 8 * sind st.angle⟩
          (rnd st.streets.length).1 (rnd st.streets.length).2] ++ tl, ?_, ?_⟩
      · rw [htl, hc, List.append_assoc]
      · intro t ht
        rcases List.mem_append.1 ht with ht | ht
        · rcases List.mem_singleton.1 ht with rfl
          exact hb
        · exact hP t ht

/-- C1 (amended): every Street emitted by the symbol loop has its end
Point within the canvas bounds, and this carries to
StreetGenerator.generate_streets run on a fresh generator; the start
Point, by contrast, is not checked by the code and can lie outside the
canvas (see the counterexample). -/
theorem c1_street_ends_in_bounds :
    (∀ (w h : ℚ) (rnd : Nat → ℚ × String) (s : List Char) (st : TurtleState),
      (∀ t ∈ st.streets, inBoundsPt w h t.stop) →
      ∀ t ∈ (interpret w h rnd s st).streets, inBoundsPt w h t.stop) ∧
    (∀ (g : StreetGenerator) (rnd : Nat → ℚ × String) (it : Nat),
      g.streets = [] →
      ∀ t ∈ (g.generate_streets rnd it).streets,
        inBoundsPt (g.width : ℚ) (g.height : ℚ) t.stop) := by
  constructor
  · intro w h rnd s st hst t ht
    obtain ⟨tl, htl, hP⟩ := interpret_streets_append w h rnd s st
    rw [htl] at ht
    rcases List.mem_append.1 ht with ht | ht
    · exact hst t ht
    · exact hP t ht
  · intro g rnd it hg t ht
    simp only [StreetGenerator.generate_streets] at ht
    obtain ⟨tl, htl, hP⟩ := interpret_streets_append (g.width : ℚ) (g.height : ℚ)
      rnd (LSystem.generate kochRules ['F'] it)
      { x := ((g.width.fdiv 2 : Int) : ℚ), y := ((g.height.fdiv 2 : Int) : ℚ),
        angle := 0, stack := [], streets := g.streets }
    rw [htl] at ht
    rcases List.mem_append.1 ht with ht | ht
    · rw [hg] at ht; cases ht
    · exact hP t ht

/-- Witness for C1 (amended): a fresh 100 by 100 generator run with
iteration count 0 emits the single street from the canvas center (50,50)
to (58,50), whose end point is in bounds. -/
theorem c1_street_ends_in_bounds_witness :
    inBoundsPt ((100 : Int) : ℚ) ((100 : Int) : ℚ) { x := 58, y := 50 } := by
  have hmem : ((StreetGenerator.mk 100 100 []).generate_streets
      (fun _ => (1, "main")) 0).streets =
      [{ start := ⟨50, 50⟩, stop := ⟨58, 50⟩, width := 1, street_type := "main" }] := by
    norm_num [StreetGenerator.generate_streets, LSystem.generate, interpret,
      stepChar, cosd, sind, show Int.fdiv 100 2 = 50 from by decide]
  have := c1_street_ends_in_bounds.2 (StreetGenerator.mk 100 100 [])
    (fun _ => (1, "main")) 0 rfl
    { start := ⟨50, 50⟩, stop := ⟨58, 50⟩, width := 1, street_type := "main" }
    (by rw [hmem]; exact List.mem_singleton.2 rfl)
  exact this

/-- Counterexample to C1 as stated: on a 10 by 10 canvas starting from
the center (5,5), the string "F--F" first walks out of bounds to (13,5)
without emitting, turns around, and then emits a Street from (13,5)
back to (5,5): an emitted Street whose start point lies outside
the canvas. -/
theorem c1_counterexample :
    (interpret 10 10 (fun _ => (1, "main")) "F--F".toList
      { x := 5, y := 5, angle := 0, stack := [], streets := [] }).streets =
      [{ start := { x := 13, y := 5 }, stop := { x := 5, y := 5 },
         width := 1, street_type := "main" }] ∧
    ¬ inBoundsPt 10 10 { x := 13, y := 5 } := by
  constructor
  · norm_num [interpret, stepChar, cosd, sind]
  · norm_num [inBoundsPt]

/-- Counterexample to C3 as stated: generate_streets never clears
self.streets (it is only initialized in __init__, src/main.py line 65,
and then appended to, line 93), so a second call returns the first
run's street (drawn width 0 here) followed by the second run's street
(drawn width 1), rather than only the second run's output. -/
theorem c3_counterexample :
    ((StreetGenerator.mk 100 100 []).generate_streets
        (fun n => ((n : ℚ), "main")) 0).streets =
      [Street.mk ⟨50, 50⟩ ⟨58, 50⟩ 0 "main"] ∧
    (((StreetGenerator.mk 100 100 []).generate_streets
        (fun n => ((n : ℚ), "main")) 0).generate_streets
        (fun n => ((n : ℚ), "main")) 0).streets =
      [Street.mk ⟨50, 50⟩ ⟨58, 50⟩ 0 "main",
       Street.mk ⟨50, 50⟩ ⟨58, 50⟩ 1 "main"] := by
  constructor
  · norm_num [StreetGenerator.generate_streets, LSystem.generate, interpret,
      stepChar, cosd, sind, show Int.fdiv 100 2 = 50 from by decide]
  · norm_num [StreetGenerator.generate_streets, LSystem.generate, interpret,
      stepChar, cosd, sind, show Int.fdiv 100 2 = 50 from by decide]

/-- C3 (amended): StreetGenerator.generate_streets does not replace the
previously stored street list; it keeps every previously stored street
as a prefix and appends the new run's streets after them. -/
theorem c3_streets_accumulate (g : StreetGenerator)
    (rnd : Nat → ℚ × String) (it : Nat) :
    ((g.generate_streets rnd it).streets).take g.streets.length = g.streets := by
  obtain ⟨tl, htl, -⟩ := interpret_streets_append (g.width : ℚ) (g.height : ℚ)
    rnd (LSystem.generate kochRules ['F'] it)
    { x := ((g.width.fdiv 2 : Int) : ℚ), y := ((g.height.fdiv 2 : Int) : ℚ),
      angle := 0, stack := [], streets := g.streets }
  simp only [StreetGenerator.generate_streets]
  rw [htl]
  exact List.take_left g.streets tl

lemma cosd_sq_add_sind_sq {a : Int} (ha : 90 ∣ a) :
    cosd a ^ 2 + sind a ^ 2 = 1 := by
  obtain ⟨k, rfl⟩ := ha
  have hcases : (90 * k) % 360 = 0 ∨ (90 * k) % 360 = 90 ∨
      (90 * k) % 360 = 180 ∨ (90 * k) % 360 = 270 := by omega
  rcases hcases with h | h | h | h <;> simp [cosd, sind, h]

/-- Headings are right angles: the current angle and every stacked
angle are multiples of 90 degrees. -/
def rightAngles (st : TurtleState) : Prop :=
  90 ∣ st.angle ∧ ∀ e ∈ st.stack, 90 ∣ e.2.2

lemma stepChar_rightAngles (w h : ℚ) (rnd : Nat → ℚ × String)
    (st : TurtleState) (c : Char) (hg : rightAngles st) :
    rightAngles (stepChar w h rnd st c) := by
  obtain ⟨hang, hstk⟩ := hg
  by_cases h1 : c = 'F'
  · subst h1
    simp only [stepChar]
    split_ifs <;> exact ⟨hang, hstk⟩
  · by_cases h2 : c = '+'
    · subst h2
      exact ⟨dvd_add hang (by norm_num), hstk⟩
    · by_cases h3 : c = '-'
      · subst h3
        exact ⟨dvd_sub hang (by norm_num), hstk⟩
      · by_cases h4 : c = '['
        · subst h4
          refine ⟨hang, ?_⟩
          intro e he
          rcases List.mem_cons.1 he with rfl | he
          · exact hang
          · exact hstk e he
        · by_cases h5 : c = ']'
          · subst h5
            rcases hst : st.stack with _ | ⟨⟨px, py, pa⟩, rest⟩
            · have hstep : stepChar w h rnd st ']' = st := by
                simp [stepChar, hst]
              rw [hstep]
              exact ⟨hang, hstk⟩
            · have hstep : stepChar w h rnd st ']' =
                  { st with x := px, y := py, angle := pa, stack := rest } := by
                simp [stepChar, hst]
              rw [hstep]
              refine ⟨hstk (px, py, pa) (by rw [hst]; exact List.mem_cons_self _ _), ?_⟩
              intro e he
              exact hstk e (by rw [hst]; exact List.mem_cons_of_mem _ he)
          · have hstep : stepChar w h rnd st c = st := by
              simp [stepChar, h1, h2, h3, h4, h5]
            rw [hstep]
            exact ⟨hang, hstk⟩

lemma interpret_distSq_64 (w h : ℚ) (rnd : Nat → ℚ × String) :
    ∀ (s : List Char) (st : TurtleState), rightAngles st →
      (∀ t ∈ st.streets, distSq t.start t.stop = 64) →
      ∀ t ∈ (interpret w h rnd s st).streets, distSq t.start t.stop = 64 := by
  intro s
  induction s with
  | nil => intro st _ hst; simpa [interpret_nil] using hst
  | cons c cs ih =>
    intro st hg hst
    rw [interpret_cons]
    refine ih (stepChar w h rnd st c) (stepChar_rightAngles w h rnd st c hg) ?_
    intro t ht
    rcases stepChar_streets_cases w h rnd st c with hc | ⟨-, hc⟩
    · exact hst t (hc ▸ ht)
    · rw [hc] at ht
      rcases List.mem_append.1 ht with ht | ht
      · exact hst t ht
      · rcases List.mem_singleton.1 ht with rfl
        have hcs := cosd_sq_add_sind_sq hg.1
        simp only [distSq]
        ring_nf
        linear_combination (64 : ℚ) * hcs

/-- C10: every Street emitted by StreetGenerator.generate_streets on a
fresh generator joins points exactly 8 canvas units apart: the step
length is the constant 8, the heading is always a multiple of 90
degrees, so each segment is axis-aligned with length exactly 8, and in
particular all streets of a run have equal length. -/
theorem c10_streets_length_eight (w h : Int) (rnd : Nat → ℚ × String)
    (it : Nat) :
    ∀ t ∈ ((StreetGenerator.mk w h []).generate_streets rnd it).streets,
      Point.distance_to t.start t.stop = 8 := by
  intro t ht
  simp only [StreetGenerator.generate_streets] at ht
  have h64 := interpret_distSq_64 (w : ℚ) (h : ℚ) rnd
    (LSystem.generate kochRules ['F'] it)
    { x := ((Int.fdiv w 2 : Int) : ℚ), y := ((Int.fdiv h 2 : Int) : ℚ),
      angle := 0, stack := [], streets := [] }
    ⟨⟨0, by ring⟩, by simp⟩ (by simp) t ht
  rw [Point.distance_to, h64]
  rw [show (((64 : ℚ) : ℝ)) = (8 : ℝ) ^ 2 by norm_num]
  exact Real.sqrt_sq (by norm_num)

/-- Witness for C10: a fresh 100 by 100 generator at iteration count 0
emits the street from (50,50) to (58,50), and its length is exactly 8. -/
theorem c10_streets_length_eight_witness :
    Point.distance_to ⟨50, 50⟩ ⟨58, 50⟩ = 8 := by
  have hmem : ((StreetGenerator.mk 100 100 []).generate_streets
      (fun _ => (1, "main")) 0).streets =
      [Street.mk ⟨50, 50⟩ ⟨58, 50⟩ 1 "main"] := by
    norm_num [StreetGenerator.generate_streets, LSystem.generate, interpret,
      stepChar, cosd, sind, show Int.fdiv 100 2 = 50 from by decide]
  exact c10_streets_length_eight 100 100 (fun _ => (1, "main")) 0
    (Street.mk ⟨50, 50⟩ ⟨58, 50⟩ 1 "main")
    (by rw [hmem]; exact List.mem_singleton.2 rfl)

/-- The scipy Voronoi result consumed by generate_districts (src/main.py
lines 113-117): computed vertices, the vertex-index list of each region
(with -1 marking a vertex at infinity, i.e. an unbounded region), and
for each input seed the index of its region.  The scipy computation
itself is an external library call; its output shape is modelled by
this structure. -/
structure VoronoiData where
  vertices : List (ℚ × ℚ)
  regions : List (List Int)
  point_region : List Nat
  deriving DecidableEq, Repr

/-- The district_points comprehension (src/main.py lines 119-120):
look up each listed vertex index in vor.vertices. -/
def regionPoints (v : VoronoiData) (region : List Int) : List Point :=
  region.map fun i =>
    Point.mk (v.vertices.getD i.toNat (0, 0)).1 (v.vertices.getD i.toNat (0, 0)).2

/-- The region loop of VoronoiGenerator.generate_districts (src/main.py
lines 116-121): for each seed's region index, keep the region iff it
contains no -1 marker and is nonempty. -/
def districtsLoop (v : VoronoiData) : List Nat → List (List Point)
  | [] => []
  | idx :: rest =>
    let region := v.regions.getD idx []
    if (-1 : Int) ∉ region ∧ 0 < region.length then
      regionPoints v region :: districtsLoop v rest
    else districtsLoop v rest

/-- VoronoiGenerator.generate_districts (src/main.py lines 112-123),
as a function of the (externally computed) Voronoi data. -/
def VoronoiGenerator.generate_districts (v : VoronoiData) : List (List Point) :=
  districtsLoop v v.point_region

/-- Counterexample to C2 as stated: the code's filter (line 118) keeps
any region with no -1 marker and `len(region) > 0`, not `>= 3`; a
bounded region listing only two vertices passes the filter and is
returned as a District with 2 vertices. -/
theorem c2_counterexample :
    VoronoiGenerator.generate_districts
        (VoronoiData.mk [(0, 0), (1, 0)] [[0, 1]] [0]) =
      [[Point.mk 0 0, Point.mk 1 0]] ∧
    ([Point.mk 0 0, Point.mk 1 0] : List Point).length < 3 := by
  constructor
  · norm_num [VoronoiGenerator.generate_districts, districtsLoop, regionPoints]
  · norm_num

/-- C2 (amended): a seed's region is included in the output iff it is
bounded (no vertex-at-infinity marker -1) and nonempty (the code tests
`len(region) > 0`, not `>= 3`); consequently every returned District is
bounded and has at least 1 vertex, but Districts with 1 or 2 vertices
are not excluded. -/
theorem c2_district_filter (v : VoronoiData) :
    VoronoiGenerator.generate_districts v =
      ((v.point_region.map fun idx => v.regions.getD idx []).filter
        (fun r => decide ((-1 : Int) ∉ r ∧ 0 < r.length))).map
        (regionPoints v) ∧
    ∀ d ∈ VoronoiGenerator.generate_districts v, 0 < d.length := by
  have hloop : ∀ (l : List Nat),
      districtsLoop v l =
        ((l.map fun idx => v.regions.getD idx []).filter
          (fun r => decide ((-1 : Int) ∉ r ∧ 0 < r.length))).map
          (regionPoints v) := by
    intro l
    induction l with
    | nil => rfl
    | cons idx rest ih =>
      simp only [districtsLoop, ih, List.map_cons, List.filter_cons,
        decide_eq_true_eq]
      split_ifs with hc
      · simp
      · rfl
  constructor
  · exact hloop v.point_region
  · intro d hd
    rw [VoronoiGenerator.generate_districts, hloop] at hd
    obtain ⟨r, hr, rfl⟩ := List.mem_map.1 hd
    have := List.of_mem_filter hr
    simp only [decide_eq_true_eq] at this
    simpa [regionPoints] using this.2

/-- Witness for C2 (amended): on the two-vertex Voronoi data of the
counterexample, the single returned district is nonempty. -/
theorem c2_district_filter_witness :
    0 < ([Point.mk 0 0, Point.mk 1 0] : List Point).length := by
  refine (c2_district_filter (VoronoiData.mk [(0, 0), (1, 0)] [[0, 1]] [0])).2
    [Point.mk 0 0, Point.mk 1 0] ?_
  norm_num [VoronoiGenerator.generate_districts, districtsLoop, regionPoints]

/-- The random draws consumed for one river in generate_rivers
(src/main.py lines 134-142): the edge choice (vertical edges when
`edgeVert`, i.e. x pinned to 0 or width-1), which of the two edges
(`side`), the position along the edge (`t`), one (x,y) direction choice
per walk step (each of the two allowed values selected by a Bool), and
the river width draw. -/
structure RiverRand where
  edgeVert : Bool
  side : Bool
  t : Int
  steps : List (Bool × Bool)
  width : ℚ

/-- Spawn-point selection of generate_rivers (src/main.py lines
134-139). -/
def riverSpawn (w h : Int) (r : RiverRand) : Int × Int :=
  if r.edgeVert then (if r.side then 0 else w - 1, r.t)
  else (r.t, if r.side then 0 else h - 1)

/-- The biased random walk of generate_rivers (src/main.py lines
142-155): per step, the x direction is drawn from 0 or 1 left of the
canvas midline and from -1 or 0 otherwise (likewise for y), the step is
clamped to canvas bounds, and the new point is appended only when it
differs from the current position (in which case the position
advances). -/
def riverDir (half c : Int) (b : Bool) : Int :=
  if c < half then (if b then 1 else 0) else (if b then 0 else -1)

def riverWalk (w h : Int) : List (Bool × Bool) → Int → Int → List Point
  | [], _, _ => []
  | (bx, b2) :: rest, cx, cy =>
    let nx := max 0 (min (w - 1) (cx + riverDir (w.fdiv 2) cx bx))
    let ny := max 0 (min (h - 1) (cy + riverDir (h.fdiv 2) cy b2))
    if (nx, ny) ≠ (cx, cy) then
      Point.mk (nx : ℚ) (ny : ℚ) :: riverWalk w h rest nx ny
    else riverWalk w h rest cx cy

/-- One river of generate_rivers (src/main.py lines 134-159): the spawn
point followed by the appended walk points. -/
def makeRiver (w h : Int) (r : RiverRand) : River :=
  { points := Point.mk ((riverSpawn w h r).1 : ℚ) ((riverSpawn w h r).2 : ℚ) ::
      riverWalk w h r.steps (riverSpawn w h r).1 (riverSpawn w h r).2,
    width := r.width }

/-- CellularAutomaton.generate_rivers (src/main.py lines 131-160): one
river per requested draw record. -/
def CellularAutomaton.generate_rivers (w h : Int) (rs : List RiverRand) :
    List River :=
  rs.map (makeRiver w h)

lemma riverWalk_length_le (w h : Int) :
    ∀ (steps : List (Bool × Bool)) (cx cy : Int),
      (riverWalk w h steps cx cy).length ≤ steps.length := by
  intro steps
  induction steps with
  | nil => intro cx cy; simp [riverWalk]
  | cons p rest ih =>
    intro cx cy
    obtain ⟨bx, b2⟩ := p
    simp only [riverWalk]
    split_ifs <;>
      first
        | simpa using Nat.succ_le_succ (ih _ _)
        | exact le_trans (ih _ _) (Nat.le_succ _)

/-- C7: every River produced by generate_rivers whose walk was drawn
with a step count in the interval from 20 to 50 has between 1 and 51
points: the spawn point plus at most one point per walk step, where a
step contributes a point only when it moves the position. -/
theorem c7_river_point_count (w h : Int) (rs : List RiverRand)
    (hlen : ∀ r ∈ rs, 20 ≤ r.steps.length ∧ r.steps.length ≤ 50) :
    ∀ rv ∈ CellularAutomaton.generate_rivers w h rs,
      1 ≤ rv.points.length ∧ rv.points.length ≤ 51 := by
  intro rv hrv
  obtain ⟨r, hr, rfl⟩ := List.mem_map.1 hrv
  have hw := riverWalk_length_le w h r.steps
    (riverSpawn w h r).1 (riverSpawn w h r).2
  have hb := (hlen r hr).2
  constructor
  · simp [makeRiver]
  · simp only [makeRiver, List.length_cons]
    omega

/-- Witness for C7: a concrete 20-step river on a 100 by 100 canvas has
between 1 and 51 points. -/
theorem c7_river_point_count_witness :
    1 ≤ (makeRiver 100 100
        (RiverRand.mk true true 5 (List.replicate 20 (true, true)) 1)).points.length ∧
    (makeRiver 100 100
        (RiverRand.mk true true 5 (List.replicate 20 (true, true)) 1)).points.length ≤ 51 := by
  refine c7_river_point_count 100 100
    [RiverRand.mk true true 5 (List.replicate 20 (true, true)) 1] ?_ _ ?_
  · intro r hr
    rcases List.mem_singleton.1 hr with rfl
    simp
  · simp [CellularAutomaton.generate_rivers]

/-- The random draws consumed for one building (src/main.py lines
194-200 and 210-216): the two coordinate jitters, the width and height
draws, and the category choice. -/
structure BRand where
  jx : ℚ
  jy : ℚ
  bw : ℚ
  bh : ℚ
  btype : String

/-- The per-street building count `int(street_length / 3)` (src/main.py
lines 188-189); the length is nonnegative, so Python's truncation
toward zero is the floor. -/
noncomputable def numStreetBuildings (s : Street) : Nat :=
  (⌊Point.distance_to s.start s.stop / 3⌋).toNat

/-- The street-frontage loop body of generate_buildings (src/main.py
lines 190-202): building i sits at parameter t = i / max(1, count - 1)
along the segment, plus the drawn jitter. -/
noncomputable def buildingsForStreet (s : Street) (rnd : Nat → BRand) :
    List Building :=
  (List.range (numStreetBuildings s)).map fun (i : Nat) =>
    let t : ℚ := (i : ℚ) / ((max 1 (numStreetBuildings s - 1) : ℕ) : ℚ)
    { position := ⟨s.start.x + t * (s.stop.x - s.start.x) + (rnd i).jx,
        s.start.y + t * (s.stop.y - s.start.y) + (rnd i).jy⟩,
      width := (rnd i).bw, height := (rnd i).bh,
      building_type := (rnd i).btype }

/-- The random draws consumed for one district (src/main.py lines
208-216): the building count (drawn by randint(5, 15)) and the draws of
each of its buildings. -/
structure DRand where
  count : Nat
  draws : Nat → BRand

/-- The district centroid of generate_buildings (src/main.py lines
206-207): unweighted mean of the vertex coordinates. -/
def districtCenter (d : List Point) : ℚ × ℚ :=
  ((d.map Point.x).sum / (d.length : ℚ), (d.map Point.y).sum / (d.length : ℚ))

/-- The district loop body of generate_buildings (src/main.py lines
203-218): districts with fewer than 3 vertices are skipped; otherwise
the drawn number of buildings is scattered around the centroid by the
drawn jitters. -/
def buildingsForDistrict (d : List Point) (r : DRand) : List Building :=
  if d.length < 3 then []
  else
    (List.range r.count).map fun j =>
      { position := ⟨(districtCenter d).1 + (r.draws j).jx,
          (districtCenter d).2 + (r.draws j).jy⟩,
        width := (r.draws j).bw, height := (r.draws j).bh,
        building_type := (r.draws j).btype }

/-- BuildingGenerator.generate_buildings (src/main.py lines 184-220):
the street-frontage batch over all streets in order, followed by the
district-interior batch over all districts in order.  `srnd` and `drnd`
index the random draws by street/district position. -/
noncomputable def BuildingGenerator.generate_buildings
    (streets : List Street) (districts : List (List Point))
    (srnd : Nat → Nat → BRand) (drnd : Nat → DRand) : List Building :=
  (streets.enum.flatMap fun p => buildingsForStreet p.2 (srnd p.1)) ++
    (districts.enum.flatMap fun p => buildingsForDistrict p.2 (drnd p.1))

/-- C8: for every street, the number of street-frontage buildings is
floor(street length / 3); building i sits at parameter t = i/(count-1)
along the segment for count > 1 (t = 0 for count = 1, via the
max(1, count-1) denominator), and the drawn jitter is added to each
coordinate afterwards. -/
theorem c8_street_frontage_buildings (s : Street) (rnd : Nat → BRand)
    (drnd : Nat → DRand) :
    (buildingsForStreet s rnd).length = numStreetBuildings s ∧
    BuildingGenerator.generate_buildings [s] [] (fun _ => rnd) drnd =
      buildingsForStreet s rnd ∧
    (∀ i : Nat, i < numStreetBuildings s →
      ((buildingsForStreet s rnd).getD i
          (Building.mk ⟨0, 0⟩ 0 0 "residential")).position =
        ⟨s.start.x + ((i : ℚ) / ((max 1 (numStreetBuildings s - 1) : ℕ) : ℚ)) *
            (s.stop.x - s.start.x) + (rnd i).jx,
          s.start.y + ((i : ℚ) / ((max 1 (numStreetBuildings s - 1) : ℕ) : ℚ)) *
            (s.stop.y - s.start.y) + (rnd i).jy⟩) := by
  refine ⟨by simp [buildingsForStreet], ?_, ?_⟩
  · simp [BuildingGenerator.generate_buildings, List.enum, List.enumFrom]
  · intro i hi
    have hlen : i < (buildingsForStreet s rnd).length := by
      simpa [buildingsForStreet] using hi
    rw [List.getD_eq_getElem _ _ hlen]
    simp [buildingsForStreet, hi]

/-- Witness for C8: the street from (0,0) to (6,0) has length 6, gets
floor(6/3) = 2 buildings, and with zero jitter building 1 sits at
t = 1/(2-1) = 1, i.e. at the street's end point (6,0). -/
theorem c8_street_frontage_buildings_witness :
    numStreetBuildings (Street.mk ⟨0, 0⟩ ⟨6, 0⟩ 1 "main") = 2 ∧
    ((buildingsForStreet (Street.mk ⟨0, 0⟩ ⟨6, 0⟩ 1 "main")
        (fun _ => BRand.mk 0 0 1 1 "residential")).getD 1
        (Building.mk ⟨0, 0⟩ 0 0 "residential")).position = ⟨6, 0⟩ := by
  have hd : Point.distance_to ⟨0, 0⟩ ⟨6, 0⟩ = 6 := by
    simp only [Point.distance_to]
    have h36 : distSq ⟨0, 0⟩ ⟨6, 0⟩ = 36 := by norm_num [distSq]
    rw [h36, show ((36 : ℚ) : ℝ) = (6 : ℝ) ^ 2 by norm_num]
    exact Real.sqrt_sq (by norm_num)
  have hn : numStreetBuildings (Street.mk ⟨0, 0⟩ ⟨6, 0⟩ 1 "main") = 2 := by
    simp only [numStreetBuildings, hd]
    norm_num
    decide
  refine ⟨hn, ?_⟩
  have h3 := (c8_street_frontage_buildings (Street.mk ⟨0, 0⟩ ⟨6, 0⟩ 1 "main")
    (fun _ => BRand.mk 0 0 1 1 "residential") (fun _ => DRand.mk 0 (fun _ =>
    BRand.mk 0 0 1 1 "residential"))).2.2 1 (by rw [hn]; norm_num)
  rw [h3, hn]
  norm_num [Point.mk.injEq]

/-- C9: the Building Placer skips districts with fewer than 3 vertices
(they produce no interior buildings), and for districts with at least 3
vertices it centers the interior cluster at the unweighted arithmetic
mean of the vertices: every interior building sits at that centroid
plus its drawn jitter, and for a triangle the centroid is exactly the
mean of the three vertices. -/
theorem c9_district_centroid (d : List Point) (r : DRand)
    (srnd : Nat → Nat → BRand) :
    (d.length < 3 → buildingsForDistrict d r = []) ∧
    BuildingGenerator.generate_buildings [] [d] srnd (fun _ => r) =
      buildingsForDistrict d r ∧
    (3 ≤ d.length → ∀ j : Nat, j < r.count →
      ((buildingsForDistrict d r).getD j
          (Building.mk ⟨0, 0⟩ 0 0 "residential")).position =
        ⟨(districtCenter d).1 + (r.draws j).jx,
          (districtCenter d).2 + (r.draws j).jy⟩) ∧
    (∀ p1 p2 p3 : Point, districtCenter [p1, p2, p3] =
      ((p1.x + p2.x + p3.x) / 3, (p1.y + p2.y + p3.y) / 3)) := by
  refine ⟨?_, ?_, ?_, ?_⟩
  · intro hlt
    simp [buildingsForDistrict, hlt]
  · simp [BuildingGenerator.generate_buildings, List.enum, List.enumFrom]
  · intro hge j hj
    have hne : ¬ d.length < 3 := not_lt.2 hge
    have hlen : j < (buildingsForDistrict d r).length := by
      simpa [buildingsForDistrict, hne] using hj
    rw [List.getD_eq_getElem _ _ hlen]
    simp [buildingsForDistrict, hne, hj]
  · intro p1 p2 p3
    simp only [districtCenter, List.map_cons, List.map_nil, List.sum_cons,
      List.sum_nil, List.length_cons, List.length_nil]
    norm_num
    constructor <;> ring

/-- Witness for C9: for the triangle (0,0), (3,0), (0,3) with one
zero-jitter building, the building sits at the vertex mean (1,1). -/
theorem c9_district_centroid_witness :
    ((buildingsForDistrict [Point.mk 0 0, Point.mk 3 0, Point.mk 0 3]
        (DRand.mk 1 (fun _ => BRand.mk 0 0 1 1 "residential"))).getD 0
        (Building.mk ⟨0, 0⟩ 0 0 "residential")).position = ⟨1, 1⟩ := by
  have h := (c9_district_centroid [Point.mk 0 0, Point.mk 3 0, Point.mk 0 3]
    (DRand.mk 1 (fun _ => BRand.mk 0 0 1 1 "residential"))
    (fun _ _ => BRand.mk 0 0 1 1 "residential")).2.2.1
    (by norm_num) 0 (by norm_num)
  rw [h]
  norm_num [districtCenter, Point.mk.injEq]
